import Mathlib

/-!
# Verification of the EduChain credential issuance and verification core

This file gives a shallow embedding, in Lean 4, of the privacy-preserving
credential subsystem of the EduChain education platform:

* the `EducationCredentialNFT` smart contract
  (`src/smart-contracts/contracts/EducationNFT.sol`) as an explicit state
  machine over `ChainState`;
* the blockchain adapter `BlockchainService`
  (`src/backend/src/services/securityManager.js`): hashing utilities, the
  gas handling of its write operations, and its `verifyCertificate` method;
* the certificate controller
  (`src/backend/src/controllers/courseController.js`): the
  `mintCertificate`, `claimCertificate` and `verifyCertificate` request
  handlers, together with the route table of `routes/certificates.js`.

Addresses are modelled as natural numbers with `0` standing for the zero
address, block timestamps as natural numbers, and Solidity mappings as total
functions returning the default value for unset keys, exactly as Solidity
storage does.  A reverting transaction is an `Except.error`; an `error`
result leaves the pre-state in force (EVM revert semantics).
-/

namespace EduChain

/-- The on-chain `Credential` struct of `EducationNFT.sol` (lines 31-44). -/
structure Credential where
  courseHash : String
  studentHash : String
  completionDate : Nat
  evaluationHash : String
  ipfsMetadata : String
  credentialType : Nat
  isRevocable : Bool
  isSoulbound : Bool
  issuer : Nat
  validUntil : Nat
  zkProof : Nat
  isVerified : Bool
  deriving Repr, DecidableEq

/-- The all-zero credential: what a Solidity `mapping(uint256 => Credential)`
returns for an unset key, and what `delete credentials[tokenId]` leaves. -/
def emptyCredential : Credential :=
  { courseHash := ""
    studentHash := ""
    completionDate := 0
    evaluationHash := ""
    ipfsMetadata := ""
    credentialType := 0
    isRevocable := false
    isSoulbound := false
    issuer := 0
    validUntil := 0
    zkProof := 0
    isVerified := false }

/-- Storage of the `EducationCredentialNFT` contract plus the ERC-721 core
state it inherits from OpenZeppelin (`_owners`, token and operator
approvals) and the `AccessControl` role sets it uses.  Mappings are total
functions; `owners t = 0` means token `t` does not exist. -/
structure ChainState where
  tokenIdCounter : Nat
  credentials : Nat → Credential
  usedHashes : String → Bool
  revoked : Nat → Bool
  owners : Nat → Nat
  tokenApprovals : Nat → Nat
  operatorApprovals : Nat → Nat → Bool
  issuerCreds : Nat → List Nat
  issuerRole : Nat → Bool
  adminRole : Nat → Bool
  verifierRole : Nat → Bool
  paused : Bool

/-- `_exists(tokenId)` of ERC-721: the owner slot is nonzero. -/
def ChainState.exists_ (s : ChainState) (tokenId : Nat) : Bool :=
  s.owners tokenId != 0

/-- ERC-721 `_isApprovedOrOwner(spender, tokenId)`: the spender is the
owner, an approved operator of the owner, or the per-token approved
address. -/
def ChainState.isApprovedOrOwner (s : ChainState) (spender tokenId : Nat) : Bool :=
  let owner := s.owners tokenId
  spender == owner || s.operatorApprovals owner spender || s.tokenApprovals tokenId == spender

/-- The packed pre-image `abi.encodePacked(courseHash, studentHash)` whose
keccak digest keys the `usedHashes` registry (EducationNFT.sol line 135).
keccak256 is modelled as injective, so the registry is keyed by the packed
string itself. -/
def packedKey (courseHash studentHash : String) : String :=
  courseHash ++ studentHash

/-- The `_beforeTokenTransfer` override of `EducationNFT.sol`
(lines 389-411): pausing, the soulbound guard (minting, `from == 0`, is
exempt), the revoked guard and the inline expiry guard, in source order. -/
def beforeTokenTransfer (s : ChainState) (fr toA tokenId ts : Nat) : Except String Unit :=
  if s.paused then .error "Pausable: paused"
  else if (s.credentials tokenId).isSoulbound && fr != 0 then
    .error "Soulbound token cannot be transferred"
  else if s.revoked tokenId then
    .error "Revoked credential cannot be transferred"
  else if (s.credentials tokenId).validUntil > 0 && (s.credentials tokenId).validUntil < ts then
    .error "Expired credential cannot be transferred"
  else
    let _ := toA
    .ok ()

/-- OpenZeppelin `_mint` as invoked through `_safeMint` (the
`onERC721Received` callback of `_safeMint` is modelled as succeeding):
zero-address and double-mint guards, the `_beforeTokenTransfer` hook, then
the owner-slot write. -/
def mintToken (s : ChainState) (toA tokenId ts : Nat) : Except String ChainState :=
  if toA == 0 then .error "ERC721: mint to the zero address"
  else if s.exists_ tokenId then .error "ERC721: token already minted"
  else
    match beforeTokenTransfer s 0 toA tokenId ts with
    | .error e => .error e
    | .ok _ =>
      .ok { s with owners := fun t => if t = tokenId then toA else s.owners t }

/-- OpenZeppelin `_burn`: resolves the owner (reverting for a nonexistent
token), runs the `_beforeTokenTransfer` hook with `to = 0`, clears the
token approval and the owner slot. -/
def burnToken (s : ChainState) (tokenId ts : Nat) : Except String ChainState :=
  let owner := s.owners tokenId
  if owner == 0 then .error "ERC721: invalid token ID"
  else
    match beforeTokenTransfer s owner 0 tokenId ts with
    | .error e => .error e
    | .ok _ =>
      .ok { s with
            tokenApprovals := fun t => if t = tokenId then 0 else s.tokenApprovals t
            owners := fun t => if t = tokenId then 0 else s.owners t }

/-- The storage writes shared by `mintCredential` and
`_mintSingleCredential` (EducationNFT.sol lines 138-164 and 217-239):
increment the token counter, store the credential record, mark the
commitment hash used, append to the issuer's list, then `_safeMint`. -/
def storeAndMint (s : ChainState) (caller toA : Nat)
    (courseHash studentHash evaluationHash ipfsMetadata : String)
    (credentialType : Nat) (isSoulbound : Bool) (validUntil zkProof ts : Nat) :
    Except String (Nat × ChainState) :=
  let tokenId := s.tokenIdCounter + 1
  let cred : Credential :=
    { courseHash := courseHash
      studentHash := studentHash
      completionDate := ts
      evaluationHash := evaluationHash
      ipfsMetadata := ipfsMetadata
      credentialType := credentialType
      isRevocable := !isSoulbound
      isSoulbound := isSoulbound
      issuer := caller
      validUntil := validUntil
      zkProof := zkProof
      isVerified := false }
  let s1 : ChainState :=
    { s with
      tokenIdCounter := tokenId
      credentials := fun t => if t = tokenId then cred else s.credentials t
      usedHashes := fun k => if k = packedKey courseHash studentHash then true else s.usedHashes k
      issuerCreds := fun a => if a = caller then s.issuerCreds caller ++ [tokenId] else s.issuerCreds a }
  match mintToken s1 toA tokenId ts with
  | .error e => .error e
  | .ok s2 => .ok (tokenId, s2)

/-- `mintCredential` (EducationNFT.sol lines 116-165): role and pause
modifiers, the six input `require`s, the duplicate-commitment guard, then
the shared mint path. -/
def mintCredential (s : ChainState) (caller toA : Nat)
    (courseHash studentHash evaluationHash ipfsMetadata : String)
    (credentialType : Nat) (isSoulbound : Bool) (validUntil zkProof ts : Nat) :
    Except String (Nat × ChainState) :=
  if !s.issuerRole caller then .error "AccessControl: account is missing role ISSUER_ROLE"
  else if s.paused then .error "Pausable: paused"
  else if toA == 0 then .error "Cannot mint to zero address"
  else if courseHash == "" then .error "Course hash cannot be empty"
  else if studentHash == "" then .error "Student hash cannot be empty"
  else if ipfsMetadata == "" then .error "IPFS metadata cannot be empty"
  else if !(1 ≤ credentialType && credentialType ≤ 4) then .error "Invalid credential type"
  else if !(validUntil == 0 || validUntil > ts) then .error "Invalid expiration date"
  else if s.usedHashes (packedKey courseHash studentHash) then .error "Credential already exists"
  else storeAndMint s caller toA courseHash studentHash evaluationHash ipfsMetadata
        credentialType isSoulbound validUntil zkProof ts

/-- `_mintSingleCredential` (EducationNFT.sol lines 203-240): unlike the
public mint it performs only the duplicate-commitment check before the
shared mint path. -/
def mintSingleCredential (s : ChainState) (caller toA : Nat)
    (courseHash studentHash evaluationHash ipfsMetadata : String)
    (credentialType : Nat) (isSoulbound : Bool) (validUntil zkProof ts : Nat) :
    Except String (Nat × ChainState) :=
  if s.usedHashes (packedKey courseHash studentHash) then .error "Credential already exists"
  else storeAndMint s caller toA courseHash studentHash evaluationHash ipfsMetadata
        credentialType isSoulbound validUntil zkProof ts

/-- One row of a `BatchMintRequest` (the arrays of EducationNFT.sol
lines 170-180, read at a common index). -/
structure BatchItem where
  recipient : Nat
  courseHash : String
  studentHash : String
  evaluationHash : String
  ipfsMetadata : String
  credentialType : Nat
  isSoulbound : Bool
  validUntil : Nat
  zkProof : Nat

/-- The loop body sequence of `batchMintCredentials`. -/
def batchMintLoop (s : ChainState) (caller : Nat) (ts : Nat) :
    List BatchItem → Except String ChainState
  | [] => .ok s
  | item :: rest =>
    match mintSingleCredential s caller item.recipient item.courseHash item.studentHash
        item.evaluationHash item.ipfsMetadata item.credentialType item.isSoulbound
        item.validUntil item.zkProof ts with
    | .error e => .error e
    | .ok (_, s') => batchMintLoop s' caller ts rest

/-- `batchMintCredentials` (EducationNFT.sol lines 182-201): role and
pause modifiers, the batch-size bound of 50, then the per-item loop. -/
def batchMintCredentials (s : ChainState) (caller : Nat) (items : List BatchItem)
    (ts : Nat) : Except String ChainState :=
  if !s.issuerRole caller then .error "AccessControl: account is missing role ISSUER_ROLE"
  else if s.paused then .error "Pausable: paused"
  else if items.length > 50 then .error "Batch size too large"
  else batchMintLoop s caller ts items

/-- The contract's `verifyCredential` view (EducationNFT.sol
lines 285-311): nonexistent, revoked, expired, otherwise valid, with the
exact reason strings. -/
def verifyCredential (s : ChainState) (tokenId ts : Nat) : Bool × String :=
  if !s.exists_ tokenId then (false, "Credential does not exist")
  else if s.revoked tokenId then (false, "Credential has been revoked")
  else if (s.credentials tokenId).validUntil > 0 && (s.credentials tokenId).validUntil < ts then
    (false, "Credential has expired")
  else (true, "Credential is valid")

/-- `revokeCredential` (EducationNFT.sol lines 318-332). -/
def revokeCredential (s : ChainState) (caller tokenId : Nat) : Except String ChainState :=
  if !s.issuerRole caller then .error "AccessControl: account is missing role ISSUER_ROLE"
  else if !s.exists_ tokenId then .error "Credential does not exist"
  else if !(s.credentials tokenId).isRevocable then .error "Credential is not revocable"
  else if !((s.credentials tokenId).issuer == caller || s.adminRole caller) then
    .error "Not authorized to revoke this credential"
  else .ok { s with revoked := fun t => if t = tokenId then true else s.revoked t }

/-- The `transferFrom` override (EducationNFT.sol lines 416-423): the
soulbound guard, then ERC-721 `transferFrom` (caller authorisation,
ownership check, zero-recipient check, the `_beforeTokenTransfer` hook,
approval clearing and the owner-slot update). -/
def transferFrom (s : ChainState) (caller fr toA tokenId ts : Nat) : Except String ChainState :=
  if (s.credentials tokenId).isSoulbound then .error "Soulbound tokens cannot be transferred"
  else if !s.isApprovedOrOwner caller tokenId then
    .error "ERC721: caller is not token owner or approved"
  else if s.owners tokenId != fr then .error "ERC721: transfer from incorrect owner"
  else if toA == 0 then .error "ERC721: transfer to the zero address"
  else
    match beforeTokenTransfer s fr toA tokenId ts with
    | .error e => .error e
    | .ok _ =>
      .ok { s with
            tokenApprovals := fun t => if t = tokenId then 0 else s.tokenApprovals t
            owners := fun t => if t = tokenId then toA else s.owners t }

/-- The `safeTransferFrom` override (EducationNFT.sol lines 428-435): the
same soulbound guard, then the ERC-721 safe transfer (the receiver
callback is modelled as succeeding, so the effect equals `transferFrom`). -/
def safeTransferFrom (s : ChainState) (caller fr toA tokenId ts : Nat) :
    Except String ChainState :=
  if (s.credentials tokenId).isSoulbound then .error "Soulbound tokens cannot be transferred"
  else if !s.isApprovedOrOwner caller tokenId then
    .error "ERC721: caller is not token owner or approved"
  else if s.owners tokenId != fr then .error "ERC721: transfer from incorrect owner"
  else if toA == 0 then .error "ERC721: transfer to the zero address"
  else
    match beforeTokenTransfer s fr toA tokenId ts with
    | .error e => .error e
    | .ok _ =>
      .ok { s with
            tokenApprovals := fun t => if t = tokenId then 0 else s.tokenApprovals t
            owners := fun t => if t = tokenId then toA else s.owners t }

/-- The `safeTransferFrom` override with a `data` argument
(EducationNFT.sol lines 440-448); the data plays no role in the state
change. -/
def safeTransferFromData (s : ChainState) (caller fr toA tokenId ts : Nat)
    (dataBytes : List Nat) : Except String ChainState :=
  let _ := dataBytes
  safeTransferFrom s caller fr toA tokenId ts

/-- `_removeFromIssuerList` (EducationNFT.sol lines 470-479): swap the
first occurrence with the last element and pop. -/
def removeFromIssuerList (l : List Nat) (tokenId : Nat) : List Nat :=
  match l.indexOf? tokenId with
  | none => l
  | some i => ((l.set i (l.getLast?.getD 0)).take (l.length - 1))

/-- `burn` (EducationNFT.sol lines 454-468): caller authorisation, the
revocability guard, ERC-721 `_burn` (which runs `_beforeTokenTransfer`),
then deletion of the credential record and revocation flag and removal
from the issuer's list.  Note: `usedHashes` is not touched. -/
def burn (s : ChainState) (caller tokenId ts : Nat) : Except String ChainState :=
  if !s.isApprovedOrOwner caller tokenId then .error "Caller is not owner nor approved"
  else
    let cred := s.credentials tokenId
    if !cred.isRevocable then .error "Soulbound tokens cannot be burned"
    else
      match burnToken s tokenId ts with
      | .error e => .error e
      | .ok s1 =>
        .ok { s1 with
              credentials := fun t => if t = tokenId then emptyCredential else s1.credentials t
              revoked := fun t => if t = tokenId then false else s1.revoked t
              issuerCreds := fun a =>
                if a = cred.issuer then removeFromIssuerList (s1.issuerCreds cred.issuer) tokenId
                else s1.issuerCreds a }

/-- `setCredentialVerification` (EducationNFT.sol lines 515-519). -/
def setCredentialVerification (s : ChainState) (caller tokenId : Nat) (isValid : Bool) :
    Except String ChainState :=
  if !s.verifierRole caller then .error "AccessControl: account is missing role VERIFIER_ROLE"
  else if !s.exists_ tokenId then .error "Credential does not exist"
  else
    .ok { s with
          credentials := fun t =>
            if t = tokenId then { s.credentials t with isVerified := isValid }
            else s.credentials t }

/-- ERC-721 `approve` (inherited): grants the per-token approval. -/
def approveToken (s : ChainState) (caller toA tokenId : Nat) : Except String ChainState :=
  let owner := s.owners tokenId
  if owner == 0 then .error "ERC721: invalid token ID"
  else if toA == owner then .error "ERC721: approval to current owner"
  else if !(caller == owner || s.operatorApprovals owner caller) then
    .error "ERC721: approve caller is not token owner or approved for all"
  else .ok { s with tokenApprovals := fun t => if t = tokenId then toA else s.tokenApprovals t }

/-- ERC-721 `setApprovalForAll` (inherited). -/
def setApprovalForAll (s : ChainState) (caller operator : Nat) (approved : Bool) :
    Except String ChainState :=
  if caller == operator then .error "ERC721: approve to caller"
  else
    .ok { s with
          operatorApprovals := fun o a =>
            if o = caller ∧ a = operator then approved else s.operatorApprovals o a }

/-- `setEmergencyPause` is modelled together with the OZ `Pausable` flag
the modifiers read (EducationNFT.sol lines 524-526 stores a separate
`emergencyPaused` flag that no modifier consults; the `paused` field here
is the `PausableUpgradeable` one read by `whenNotPaused`). -/
def setPaused (s : ChainState) (caller : Nat) (p : Bool) : Except String ChainState :=
  if !s.adminRole caller then .error "AccessControl: account is missing role DEFAULT_ADMIN_ROLE"
  else .ok { s with paused := p }

/-- Every externally callable state-mutating entry point of the contract. -/
inductive Op where
  | mint (caller toA : Nat) (courseHash studentHash evaluationHash ipfsMetadata : String)
      (credentialType : Nat) (isSoulbound : Bool) (validUntil zkProof : Nat)
  | batchMint (caller : Nat) (items : List BatchItem)
  | transfer (caller fr toA tokenId : Nat)
  | safeTransfer (caller fr toA tokenId : Nat)
  | safeTransferData (caller fr toA tokenId : Nat) (dataBytes : List Nat)
  | burnOp (caller tokenId : Nat)
  | revoke (caller tokenId : Nat)
  | setVerification (caller tokenId : Nat) (isValid : Bool)
  | approve (caller toA tokenId : Nat)
  | approveAll (caller operator : Nat) (approved : Bool)
  | pauseOp (caller : Nat) (p : Bool)

/-- Execute one transaction against the contract. -/
def execOp (s : ChainState) (ts : Nat) : Op → Except String ChainState
  | .mint caller toA ch sh eh im ct sb vu zk =>
    match mintCredential s caller toA ch sh eh im ct sb vu zk ts with
    | .error e => .error e
    | .ok (_, s') => .ok s'
  | .batchMint caller items => batchMintCredentials s caller items ts
  | .transfer caller fr toA tokenId => transferFrom s caller fr toA tokenId ts
  | .safeTransfer caller fr toA tokenId => safeTransferFrom s caller fr toA tokenId ts
  | .safeTransferData caller fr toA tokenId dataBytes =>
    safeTransferFromData s caller fr toA tokenId ts dataBytes
  | .burnOp caller tokenId => burn s caller tokenId ts
  | .revoke caller tokenId => revokeCredential s caller tokenId
  | .setVerification caller tokenId isValid => setCredentialVerification s caller tokenId isValid
  | .approve caller toA tokenId => approveToken s caller toA tokenId
  | .approveAll caller operator approved => setApprovalForAll s caller operator approved
  | .pauseOp caller p => setPaused s caller p

/-- Run a sequence of timestamped transactions; a reverting transaction
leaves the state unchanged (EVM revert semantics). -/
def execTrace (s : ChainState) : List (Nat × Op) → ChainState
  | [] => s
  | (ts, op) :: rest =>
    match execOp s ts op with
    | .error _ => execTrace s rest
    | .ok s' => execTrace s' rest

/-! ## The blockchain adapter (`BlockchainService` in
`src/backend/src/services/securityManager.js`) -/

/-- The separator-joined pre-hash encoding computed by
`generateCompositeHash(...data)` (securityManager.js lines 662-665):
`data.join('|')`, before the digest of `generateHash` is applied.  Strings
are modelled as lists of characters. -/
def compositeJoin : List (List Char) → List Char
  | [] => []
  | [p] => p
  | p :: ps => p ++ '|' :: compositeJoin ps

/-- Splitting on `'|'`, the inverse direction used to analyse
`compositeJoin`. -/
def splitBar : List Char → List (List Char)
  | [] => [[]]
  | c :: rest =>
    match splitBar rest with
    | [] => [[]]
    | g :: gs => if c = '|' then [] :: g :: gs else (c :: g) :: gs

/-- The function names the adapter's hand-written ABI exposes
(securityManager.js lines 642-652).  An ethers `Contract` object has a
callable method exactly for each ABI entry; calling any other name throws. -/
def contractAbiNames : List String :=
  ["mintCredential", "getCredential", "verifyCredential", "ownerOf",
   "transferFrom", "totalSupply", "revokeCredential"]

/-- `contract.ownerOf(tokenId)`: ERC-721 `ownerOf`, reverting for a
nonexistent token. -/
def ownerOfCall (s : ChainState) (tokenId : Nat) : Except String Nat :=
  if s.owners tokenId == 0 then .error "ERC721: invalid token ID"
  else .ok (s.owners tokenId)

/-- The result object of `BlockchainService.verifyCertificate`
(securityManager.js lines 906-929). -/
structure AdapterVerifyResult where
  isValid : Bool
  owner : Option Nat
  isVerified : Bool
  errorMessage : Option String
  deriving Repr, DecidableEq

/-- The `try` block of `BlockchainService.verifyCertificate`: first
`this.contract.ownerOf(tokenId)`, then `this.contract.verifyCertificate(tokenId)`
— a method name that is not in `contractAbiNames` (the ABI declares
`verifyCredential`), so this step throws — and finally the
`owner.toLowerCase() === expectedOwner.toLowerCase()` comparison, which
throws when `expectedOwner` was not supplied. -/
def adapterVerifyTry (s : ChainState) (ts tokenId : Nat) (expectedOwner : Option Nat) :
    Except String AdapterVerifyResult := do
  let owner ← ownerOfCall s tokenId
  let isVerified ←
    if contractAbiNames.contains "verifyCertificate" then
      .ok (verifyCredential s tokenId ts).1
    else
      .error "this.contract.verifyCertificate is not a function"
  let expected ←
    match expectedOwner with
    | some e => Except.ok e
    | none => .error "Cannot read properties of undefined (reading toLowerCase)"
  .ok { isValid := isVerified && owner == expected
        owner := some owner
        isVerified := isVerified
        errorMessage := none }

/-- `BlockchainService.verifyCertificate(tokenId, expectedOwner)`: the
`try` block above with its `catch`, which returns
`{isValid: false, owner: null, isVerified: false, error}`. -/
def adapterVerifyCertificate (s : ChainState) (ts tokenId : Nat)
    (expectedOwner : Option Nat) : AdapterVerifyResult :=
  match adapterVerifyTry s ts tokenId expectedOwner with
  | .ok r => r
  | .error msg =>
    { isValid := false, owner := none, isVerified := false, errorMessage := some msg }

/-- A transaction submission of the adapter: the contract function called
and the gas-limit override passed with it, if any. -/
structure TxSubmission where
  functionName : String
  gasLimit : Option Nat
  deriving Repr, DecidableEq

/-- `Math.ceil(gasEstimate * 1.2)` (securityManager.js line 772) over
naturals: the least natural number that is at least six fifths of the
estimate. -/
def gasWithBuffer (gasEstimate : Nat) : Nat :=
  (gasEstimate * 6 + 4) / 5

/-- The submission built by `BlockchainService.mintCertificate`
(securityManager.js lines 758-786): gas is estimated first and the
transaction carries a `gasLimit` override of the estimate plus a 20%
buffer. -/
def adapterMintSubmission (gasEstimate : Nat) : TxSubmission :=
  { functionName := "mintCredential", gasLimit := some (gasWithBuffer gasEstimate) }

/-- The submission built by `BlockchainService.transferCertificate`
(securityManager.js lines 932-950): `this.contract.transferFrom(from, to,
tokenId)` is called directly, with no gas estimation and no overrides. -/
def adapterTransferSubmission : TxSubmission :=
  { functionName := "transferFrom", gasLimit := none }

/-! ## The certificate controller
(`src/backend/src/controllers/courseController.js`) and its routes
(`routes/certificates.js`, `src/unnamed/part_006`) -/

/-- The certificate route table (part_006 lines 32-138): method, path and
the middleware chain in front of the handler. -/
def certificateRoutes : List (String × String × List String) :=
  [("POST", "/certificates/mint", ["authenticate"]),
   ("POST", "/certificates/claim", []),
   ("GET", "/certificates", ["authenticate"]),
   ("GET", "/certificates/:tokenId", ["optionalAuth"]),
   ("GET", "/certificates/:tokenId/verify", []),
   ("GET", "/certificates/stats/overview", ["authenticate", "authorize"])]

/-- The middleware chain guarding a route, `none` when the route does not
exist. -/
def routeMiddleware (method path : String) : Option (List String) :=
  (certificateRoutes.find? (fun r => r.1 == method && r.2.1 == path)).map (fun r => r.2.2)

/-- The enrollment fields the `verifyCertificate` handler reads after its
populated Mongo query (courseController.js lines 804-809). -/
structure VerifyEnrollment where
  courseTitle : String
  instructorName : Option String
  userName : String
  userEmail : String
  completedAt : Nat
  score : Nat
  mintedAt : Nat
  deriving Repr, DecidableEq

/-- The `metadata` object the handler embeds in its response
(courseController.js lines 821-829). -/
structure VerifyMetadata where
  courseName : String
  studentName : String
  studentEmail : String
  instructorName : Option String
  completionDate : Nat
  score : Nat
  mintedAt : Nat
  deriving Repr, DecidableEq

/-- The response object of the `verifyCertificate` handler
(courseController.js lines 811-832). -/
structure VerifyResponse where
  tokenId : Nat
  isValid : Bool
  owner : Option Nat
  isVerified : Bool
  blockchainVerified : Bool
  databaseVerified : Bool
  metadata : Option VerifyMetadata
  deriving Repr, DecidableEq

/-- The `verifyCertificate` request handler (courseController.js
lines 793-845).  It takes no caller identity at all: the route mounts no
authentication middleware and the handler never reads `req.user`, so the
response is the same for every caller.  When the enrollment lookup
succeeds, the response's `metadata` carries the student's name and email
unconditionally. -/
def verifyCertificateHandler (tokenId : Nat) (verification : AdapterVerifyResult)
    (enrollment : Option VerifyEnrollment) : VerifyResponse :=
  let base : VerifyResponse :=
    { tokenId := tokenId
      isValid := verification.isValid
      owner := verification.owner
      isVerified := verification.isVerified
      blockchainVerified := verification.isValid
      databaseVerified := false
      metadata := none }
  match enrollment with
  | some e =>
    { base with
      databaseVerified := true
      metadata := some
        { courseName := e.courseTitle
          studentName := e.userName
          studentEmail := e.userEmail
          instructorName := e.instructorName
          completionDate := e.completedAt
          score := e.score
          mintedAt := e.mintedAt } }
  | none => base

/-- The `certificate` sub-document stored on an enrollment
(courseController.js lines 579-585). -/
structure CertRef where
  tokenId : Nat
  transactionHash : String
  mintedAt : Nat
  claimToken : String
  claimed : Bool
  claimedAt : Option Nat
  deriving Repr, DecidableEq

/-- An enrollment document as read by the `claimCertificate` handler
(populated `course.title`, `user.name`, `completedAt`). -/
structure EnrollmentDoc where
  id : Nat
  courseTitle : String
  userName : String
  completedAt : Nat
  certificate : Option CertRef
  deriving Repr, DecidableEq

/-- The Mongo filter of the claim lookup (courseController.js
lines 639-642): the certificate's `claimToken` equals the supplied token
and `claimed` is `false`. -/
def matchesClaim (token : String) (e : EnrollmentDoc) : Bool :=
  match e.certificate with
  | some c => c.claimToken == token && !c.claimed
  | none => false

/-- Set `claimed` and `claimedAt` on the enrollment's certificate
(courseController.js lines 652-654). -/
def markClaimed (ts : Nat) (e : EnrollmentDoc) : EnrollmentDoc :=
  match e.certificate with
  | some c => { e with certificate := some { c with claimed := true, claimedAt := some ts } }
  | none => e

/-- `findOne` followed by `save` on the found document: locate the first
enrollment matching the claim filter and replace it by its claimed
version, returning the document that was found. -/
def claimFirst (token : String) (ts : Nat) :
    List EnrollmentDoc → Option EnrollmentDoc × List EnrollmentDoc
  | [] => (none, [])
  | e :: rest =>
    if matchesClaim token e then (some e, markClaimed ts e :: rest)
    else
      let r := claimFirst token ts rest
      (r.1, e :: r.2)

/-- The success payload of the claim handler (courseController.js
lines 656-668). -/
structure ClaimSummary where
  tokenId : Nat
  courseName : String
  studentName : String
  completionDate : Nat
  transactionHash : String
  deriving Repr, DecidableEq

/-- An HTTP response of the claim handler: status code, message, and the
certificate summary on success. -/
structure ClaimResponse where
  status : Nat
  message : String
  summary : Option ClaimSummary
  deriving Repr, DecidableEq

/-- The `claimCertificate` request handler (courseController.js
lines 627-676) over a database `db` of enrollments: the falsy-token check,
the claim lookup, marking the certificate claimed, and the response.
Returns the response together with the post-request database. -/
def claimCertificateHandler (db : List EnrollmentDoc) (token : String) (ts : Nat) :
    ClaimResponse × List EnrollmentDoc :=
  if token == "" then
    ({ status := 400, message := "Claim token is required", summary := none }, db)
  else
    match claimFirst token ts db with
    | (none, _) =>
      ({ status := 404, message := "Invalid or expired claim token", summary := none }, db)
    | (some e, db') =>
      ({ status := 200
         message := "Certificate claimed successfully"
         summary := some
           { tokenId := (e.certificate.map CertRef.tokenId).getD 0
             courseName := e.courseTitle
             studentName := e.userName
             completionDate := e.completedAt
             transactionHash := (e.certificate.map CertRef.transactionHash).getD "" } }, db')

/-- The identifiers declared in the scope of the `mintCertificate`
handler (courseController.js lines 448-624): its parameters and every
`const` it binds on the success path. -/
def mintHandlerScope : List String :=
  ["req", "res", "enrollmentId", "userId", "enrollment", "metadata",
   "ipfsResult", "mintingData", "mintResult", "certificate"]

/-- The free identifiers referenced when building the argument of
`authService.sendNFTClaimEmail` (courseController.js lines 591-599). -/
def emailCallRefs : List String :=
  ["authService", "enrollment", "certificateData", "mintResult", "claimToken"]

/-- The free identifiers referenced when building the final success
response (courseController.js lines 605-616). -/
def successResponseRefs : List String :=
  ["res", "mintResult", "ipfsResult", "claimToken"]

/-- JavaScript identifier resolution: the first referenced name that is
not in scope raises a `ReferenceError` naming it. -/
def firstUndefinedRef (scope refs : List String) : Option String :=
  refs.find? (fun r => !scope.contains r)

/-- The external outcomes a run of the `mintCertificate` handler can
encounter, in the order the handler consults them. -/
structure MintScenario where
  enrollmentFound : Bool
  ownerMatches : Bool
  completedAndPassed : Bool
  alreadyMinted : Bool
  ipfsUploadOk : Bool
  chainMintOk : Bool
  certificateSaveOk : Bool
  enrollmentSaveOk : Bool
  emailServiceOk : Bool
  deriving Repr, DecidableEq

/-- What a run of the `mintCertificate` handler leaves behind: the HTTP
status and success flag of the response, and which persistent effects had
already happened. -/
structure MintRunResult where
  status : Nat
  success : Bool
  certificateSaved : Bool
  enrollmentUpdated : Bool
  emailSent : Bool
  deriving Repr, DecidableEq

/-- The `mintCertificate` request handler (courseController.js
lines 448-624).  Early returns mirror lines 458-487; a failing external
step throws into the outer `catch` (lines 617-623), which answers 500.
The email step (lines 590-603) evaluates its argument object — whose
references include the undeclared `certificateData` — inside an inner
`try`, so its `ReferenceError` is swallowed and the email is never sent.
The success response (lines 605-616) references the undeclared
`claimToken` outside any inner `try`, so it throws into the outer `catch`
after the certificate and enrollment were already persisted. -/
def mintCertificateHandler (sc : MintScenario) : MintRunResult :=
  if !sc.enrollmentFound then
    { status := 404, success := false, certificateSaved := false
      enrollmentUpdated := false, emailSent := false }
  else if !sc.ownerMatches then
    { status := 403, success := false, certificateSaved := false
      enrollmentUpdated := false, emailSent := false }
  else if !sc.completedAndPassed then
    { status := 400, success := false, certificateSaved := false
      enrollmentUpdated := false, emailSent := false }
  else if sc.alreadyMinted then
    { status := 400, success := false, certificateSaved := false
      enrollmentUpdated := false, emailSent := false }
  else if !sc.ipfsUploadOk then
    { status := 500, success := false, certificateSaved := false
      enrollmentUpdated := false, emailSent := false }
  else if !sc.chainMintOk then
    { status := 500, success := false, certificateSaved := false
      enrollmentUpdated := false, emailSent := false }
  else if !sc.certificateSaveOk then
    { status := 500, success := false, certificateSaved := false
      enrollmentUpdated := false, emailSent := false }
  else if !sc.enrollmentSaveOk then
    { status := 500, success := false, certificateSaved := true
      enrollmentUpdated := false, emailSent := false }
  else
    let emailSent :=
      match firstUndefinedRef mintHandlerScope emailCallRefs with
      | some _ => false
      | none => sc.emailServiceOk
    match firstUndefinedRef mintHandlerScope successResponseRefs with
    | some _ =>
      { status := 500, success := false, certificateSaved := true
        enrollmentUpdated := true, emailSent := emailSent }
    | none =>
      { status := 200, success := true, certificateSaved := true
        enrollmentUpdated := true, emailSent := emailSent }

/-! ## Concrete scenario states -/

/-- Whether a contract call succeeded. -/
def okB {α : Type} : Except String α → Bool
  | .ok _ => true
  | .error _ => false

/-- The revert reason of a failed contract call. -/
def errOf {α : Type} : Except String α → Option String
  | .ok _ => none
  | .error m => some m

/-- A deployment state as `initialize()` leaves it: address 1 holds the
admin, issuer and verifier roles, nothing is minted, nothing is paused. -/
def initialState : ChainState :=
  { tokenIdCounter := 0
    credentials := fun _ => emptyCredential
    usedHashes := fun _ => false
    revoked := fun _ => false
    owners := fun _ => 0
    tokenApprovals := fun _ => 0
    operatorApprovals := fun _ _ => false
    issuerCreds := fun _ => []
    issuerRole := fun a => a == 1
    adminRole := fun a => a == 1
    verifierRole := fun a => a == 1
    paused := false }

/-- Issuer 1 mints a permanent, non-soulbound Certificate for address 2
with commitment `("c1", "s1")` at time 100. -/
def mintOutcome1 : Except String (Nat × ChainState) :=
  mintCredential initialState 1 2 "c1" "s1" "e1" "m1" 1 false 0 0 100

/-- The chain state holding that active credential as token 1. -/
def sActive : ChainState :=
  match mintOutcome1 with
  | .ok p => p.2
  | .error _ => initialState

/-- `sActive` after issuer 1 revokes token 1. -/
def sRevoked : ChainState :=
  match revokeCredential sActive 1 1 with
  | .ok s => s
  | .error _ => sActive

/-- `sActive` after holder 2 burns token 1 at time 200. -/
def sBurned : ChainState :=
  match burn sActive 2 1 200 with
  | .ok s => s
  | .error _ => sActive

/-- Issuer 1 mints a soulbound credential for address 2 with commitment
`("c2", "s2")` at time 100. -/
def soulMintOutcome : Except String (Nat × ChainState) :=
  mintCredential initialState 1 2 "c2" "s2" "e1" "m1" 1 true 0 0 100

/-- The chain state holding that soulbound credential as token 1. -/
def sSoul : ChainState :=
  match soulMintOutcome with
  | .ok p => p.2
  | .error _ => initialState

/-- A one-enrollment claim database: token 7 with claim token `"tok"`,
not yet claimed. -/
def claimDb : List EnrollmentDoc :=
  [{ id := 5
     courseTitle := "Course A"
     userName := "Alice"
     completedAt := 90
     certificate := some
       { tokenId := 7
         transactionHash := "0xabc"
         mintedAt := 100
         claimToken := "tok"
         claimed := false
         claimedAt := none } }]

/-- The credential record a successful mint stores. -/
def mintedCred (caller : Nat) (ch sh eh im : String) (ct : Nat) (sb : Bool)
    (vu zk ts : Nat) : Credential :=
  { courseHash := ch
    studentHash := sh
    completionDate := ts
    evaluationHash := eh
    ipfsMetadata := im
    credentialType := ct
    isRevocable := !sb
    isSoulbound := sb
    issuer := caller
    validUntil := vu
    zkProof := zk
    isVerified := false }

/-- The state a successful mint produces: the next token id is assigned,
the record stored, the commitment marked used, the token appended to the
issuer's list and its owner slot set. -/
def mintedState (s : ChainState) (caller toA : Nat) (ch sh eh im : String)
    (ct : Nat) (sb : Bool) (vu zk ts : Nat) : ChainState :=
  { s with
    tokenIdCounter := s.tokenIdCounter + 1
    credentials := fun t =>
      if t = s.tokenIdCounter + 1 then mintedCred caller ch sh eh im ct sb vu zk ts
      else s.credentials t
    usedHashes := fun k => if k = packedKey ch sh then true else s.usedHashes k
    issuerCreds := fun a =>
      if a = caller then s.issuerCreds caller ++ [s.tokenIdCounter + 1] else s.issuerCreds a
    owners := fun t => if t = s.tokenIdCounter + 1 then toA else s.owners t }

/-! ## Theorems -/

/-- C1: the public verification endpoint leaks recipient PII.  The route
`GET /certificates/:tokenId/verify` mounts no authentication middleware,
and for every token, every adapter verification result (valid, revoked or
expired) and every enrollment on file, the handler's response embeds the
recipient's name and email in its `metadata`, so an unrelated caller does
receive them — contradicting the permission-filtering claim. -/
theorem verify_endpoint_returns_pii (tokenId : Nat) (verification : AdapterVerifyResult)
    (e : VerifyEnrollment) :
    routeMiddleware "GET" "/certificates/:tokenId/verify" = some [] ∧
    (verifyCertificateHandler tokenId verification (some e)).metadata =
      some
        { courseName := e.courseTitle
          studentName := e.userName
          studentEmail := e.userEmail
          instructorName := e.instructorName
          completionDate := e.completedAt
          score := e.score
          mintedAt := e.mintedAt } :=
  ⟨by decide, rfl⟩

/-- C3: the adapter's `verify` never reports a credential as valid.  Its
`verifyCertificate` method calls `this.contract.verifyCertificate`, a name
absent from its own ABI (which declares `verifyCredential`), so the `try`
block always throws and the `catch` returns `isValid: false, owner: null`
for every chain state, timestamp, token and `expectedOwner` argument —
including existing, non-revoked, non-expired tokens. -/
theorem adapter_verify_always_invalid (s : ChainState) (ts tokenId : Nat)
    (expectedOwner : Option Nat) :
    (adapterVerifyCertificate s ts tokenId expectedOwner).isValid = false ∧
    (adapterVerifyCertificate s ts tokenId expectedOwner).owner = none ∧
    (adapterVerifyCertificate s ts tokenId expectedOwner).isVerified = false ∧
    (adapterVerifyCertificate s ts tokenId expectedOwner).errorMessage.isSome = true := by
  have habi : ¬ ("verifyCertificate" ∈ contractAbiNames) := by decide
  unfold adapterVerifyCertificate adapterVerifyTry ownerOfCall
  by_cases h : s.owners tokenId == 0
  · simp [h, Bind.bind, Except.bind]
  · cases expectedOwner <;> simp [h, habi, Bind.bind, Except.bind]

/-- C8 counterexample: the adapter's transfer write operation submits
`transferFrom` with no gas-limit override at all, so it is not submitted
with an estimated gas limit plus a 20% margin. -/
theorem transfer_submission_no_gas_estimate :
    adapterTransferSubmission.functionName = "transferFrom" ∧
    adapterTransferSubmission.gasLimit = none := ⟨rfl, rfl⟩

/-- C8 amended: only the mint write operation estimates gas and submits
with the estimate plus a 20% buffer (`gasLimit = ceil(6·estimate/5)`,
bracketed below by `6·estimate ≤ 5·gasLimit < 6·estimate + 5`); the
transfer write operation submits without any gas estimation. -/
theorem gas_margin_mint_only (g : Nat) :
    (adapterMintSubmission g).gasLimit = some (gasWithBuffer g) ∧
    6 * g ≤ 5 * gasWithBuffer g ∧ 5 * gasWithBuffer g < 6 * g + 5 ∧
    adapterTransferSubmission.gasLimit = none := by
  refine ⟨rfl, ?_, ?_, rfl⟩ <;> (unfold gasWithBuffer; omega)

/-- C9 counterexample: the `'|'` separator of `generateCompositeHash` is
ambiguous: the distinct part lists `["a", "b"]` and `["a|b"]` produce the
same joined pre-hash encoding `"a|b"`. -/
theorem composite_join_collision :
    compositeJoin [['a'], ['b']] = compositeJoin [['a', '|', 'b']] ∧
    [['a'], ['b']] ≠ [['a', '|', 'b']] := by decide

/-- C10: whenever the mint handler's eligibility checks pass and the IPFS
upload, on-chain mint, certificate save and enrollment save all succeed,
the run still ends in the catch branch with an HTTP 500 failure response —
the email step's argument references the undeclared `certificateData`
(error swallowed by the inner catch, so no email is sent) and the success
response references the undeclared `claimToken` — even though the
certificate was persisted and the enrollment updated. -/
theorem mint_handler_ends_in_catch (sc : MintScenario)
    (h1 : sc.enrollmentFound = true) (h2 : sc.ownerMatches = true)
    (h3 : sc.completedAndPassed = true) (h4 : sc.alreadyMinted = false)
    (h5 : sc.ipfsUploadOk = true) (h6 : sc.chainMintOk = true)
    (h7 : sc.certificateSaveOk = true) (h8 : sc.enrollmentSaveOk = true) :
    mintCertificateHandler sc =
      { status := 500, success := false, certificateSaved := true
        enrollmentUpdated := true, emailSent := false } := by
  unfold mintCertificateHandler
  rw [h1, h2, h3, h4, h5, h6, h7, h8]
  rfl

/-- Witness for C10 at a concrete scenario in which every external step,
including the email service, would succeed. -/
theorem mint_handler_ends_in_catch_witness :
    mintCertificateHandler
      { enrollmentFound := true, ownerMatches := true, completedAndPassed := true
        alreadyMinted := false, ipfsUploadOk := true, chainMintOk := true
        certificateSaveOk := true, enrollmentSaveOk := true, emailServiceOk := true } =
      { status := 500, success := false, certificateSaved := true
        enrollmentUpdated := true, emailSent := false } :=
  mint_handler_ends_in_catch _ rfl rfl rfl rfl rfl rfl rfl rfl

/-- C5 counterexample: after holder 2 burns token 1 (commitment
`("c1","s1")`), the commitment is still registered in `usedHashes` and
re-issuing the same `(courseHash, studentHash)` pair is still rejected
with the duplicate-credential error: `burn` never frees the slot. -/
theorem burn_leaves_commitment_registered :
    okB (burn sActive 2 1 200) = true ∧
    sBurned.usedHashes (packedKey "c1" "s1") = true ∧
    errOf (mintCredential sBurned 1 3 "c1" "s1" "e2" "m2" 1 false 0 0 300) =
      some "Credential already exists" := by decide

/-- C6 counterexample: token 1 is revocable and revoked, caller 2 is its
holder, yet `burn` reverts: the `_beforeTokenTransfer` hook refuses
revoked credentials, so the `Revoked → Burned` transition is impossible. -/
theorem burn_of_revoked_fails :
    (sRevoked.credentials 1).isRevocable = true ∧
    sRevoked.isApprovedOrOwner 2 1 = true ∧
    errOf (burn sRevoked 2 1 200) = some "Revoked credential cannot be transferred" := by
  decide

theorem splitBar_ne_nil (l : List Char) : splitBar l ≠ [] := by
  induction l with
  | nil => simp [splitBar]
  | cons c rest ih =>
    unfold splitBar
    cases h : splitBar rest with
    | nil => simp
    | cons g gs => by_cases hc : c = '|' <;> simp [hc]

theorem splitBar_barfree (p : List Char) (hb : '|' ∉ p) : splitBar p = [p] := by
  induction p with
  | nil => rfl
  | cons c rest ih =>
    have hc : c ≠ '|' := fun h => hb (h ▸ List.mem_cons_self c rest)
    have hrest : '|' ∉ rest := fun h => hb (List.mem_cons_of_mem _ h)
    unfold splitBar
    rw [ih hrest]
    simp [hc]

theorem splitBar_append (p : List Char) (hb : '|' ∉ p) (r : List Char) :
    splitBar (p ++ '|' :: r) = p :: splitBar r := by
  induction p with
  | nil =>
    simp only [List.nil_append]
    cases hr : splitBar r with
    | nil => exact absurd hr (splitBar_ne_nil r)
    | cons g gs => simp [splitBar, hr]
  | cons c rest ih =>
    have hc : c ≠ '|' := fun h => hb (h ▸ List.mem_cons_self c rest)
    have hrest : '|' ∉ rest := fun h => hb (List.mem_cons_of_mem _ h)
    simp only [List.cons_append, splitBar, ih hrest]
    simp only [hc, if_false, ite_false, List.append_eq]
    rw [ih hrest]

theorem splitBar_compositeJoin (ps : List (List Char)) (hne : ps ≠ [])
    (hb : ∀ p ∈ ps, '|' ∉ p) : splitBar (compositeJoin ps) = ps := by
  induction ps with
  | nil => exact absurd rfl hne
  | cons p rest ih =>
    cases rest with
    | nil => exact splitBar_barfree p (hb p (List.mem_cons_self p []))
    | cons q qs =>
      have hjoin : compositeJoin (p :: q :: qs) = p ++ '|' :: compositeJoin (q :: qs) := rfl
      rw [hjoin, splitBar_append p (hb p (List.mem_cons_self p (q :: qs)))]
      rw [ih (by simp) (fun x hx => hb x (List.mem_cons_of_mem _ hx))]

/-- C9 amended: the joined pre-hash encoding of `generateCompositeHash`
is injective on nonempty part lists whose parts avoid the separator
`'|'`: two distinct such lists never collapse to the same pre-image.
(Ambiguity remains for parts containing `'|'`, per the counterexample.) -/
theorem composite_join_injective_of_barfree (ps qs : List (List Char))
    (hps : ps ≠ []) (hqs : qs ≠ [])
    (hbp : ∀ p ∈ ps, '|' ∉ p) (hbq : ∀ q ∈ qs, '|' ∉ q)
    (h : compositeJoin ps = compositeJoin qs) : ps = qs := by
  have h1 := splitBar_compositeJoin ps hps hbp
  have h2 := splitBar_compositeJoin qs hqs hbq
  rw [← h1, ← h2, h]

/-- Witness for the amended C9 at concrete separator-free part lists. -/
theorem composite_join_injective_witness :
    ([['a'], ['b']] : List (List Char)) = [['a'], ['b']] :=
  composite_join_injective_of_barfree [['a'], ['b']] [['a'], ['b']]
    (by decide) (by decide) (by decide) (by decide) rfl

theorem beforeTokenTransfer_ok {s : ChainState} {fr toA tokenId ts : Nat} {u : Unit}
    (h : beforeTokenTransfer s fr toA tokenId ts = .ok u) :
    s.paused = false ∧ (fr ≠ 0 → (s.credentials tokenId).isSoulbound = false) ∧
    s.revoked tokenId = false ∧
    ¬(0 < (s.credentials tokenId).validUntil ∧ (s.credentials tokenId).validUntil < ts) := by
  unfold beforeTokenTransfer at h
  split_ifs at h with c1 c2 c3 c4
  refine ⟨by simp_all, ?_, by simp_all, by simp_all⟩
  intro hfr
  simp only [Bool.and_eq_true, bne_iff_ne, ne_eq] at c2
  rcases Bool.eq_false_or_eq_true (s.credentials tokenId).isSoulbound with hs | hs
  · exact absurd ⟨hs, hfr⟩ c2
  · exact hs

theorem mintToken_ok {s : ChainState} {toA tokenId ts : Nat} {s' : ChainState}
    (h : mintToken s toA tokenId ts = .ok s') :
    toA ≠ 0 ∧ s.owners tokenId = 0 ∧ s.paused = false ∧ s.revoked tokenId = false ∧
    ¬(0 < (s.credentials tokenId).validUntil ∧ (s.credentials tokenId).validUntil < ts) ∧
    s' = { s with owners := fun t => if t = tokenId then toA else s.owners t } := by
  unfold mintToken ChainState.exists_ at h
  split_ifs at h with c1 c2
  split at h
  · exact Except.noConfusion h
  next u heq =>
    obtain ⟨hp, _, hr, hexp⟩ := beforeTokenTransfer_ok heq
    injection h with h2
    subst h2
    refine ⟨by simp_all, by simp_all, hp, hr, hexp, rfl⟩

theorem storeAndMint_ok {s : ChainState} {caller toA : Nat} {ch sh eh im : String}
    {ct : Nat} {sb : Bool} {vu zk ts : Nat} {tid : Nat} {s' : ChainState}
    (h : storeAndMint s caller toA ch sh eh im ct sb vu zk ts = .ok (tid, s')) :
    tid = s.tokenIdCounter + 1 ∧ toA ≠ 0 ∧ s.owners tid = 0 ∧ s.paused = false ∧
    s.revoked tid = false ∧ ¬(0 < vu ∧ vu < ts) ∧
    s' = mintedState s caller toA ch sh eh im ct sb vu zk ts := by
  unfold storeAndMint at h
  simp only [Nat.zero_lt_succ] at h
  split at h
  next heq => exact Except.noConfusion h
  next s2 heq =>
    injection h with h1
    injection h1 with htid hs
    subst htid
    subst hs
    obtain ⟨hto, hown, hp, hr, hexp, hs2⟩ := mintToken_ok heq
    subst hs2
    exact ⟨rfl, hto, hown, hp, hr, by simpa using hexp, rfl⟩

theorem mintCredential_ok {s : ChainState} {caller toA : Nat} {ch sh eh im : String}
    {ct : Nat} {sb : Bool} {vu zk ts : Nat} {tid : Nat} {s' : ChainState}
    (h : mintCredential s caller toA ch sh eh im ct sb vu zk ts = .ok (tid, s')) :
    s.issuerRole caller = true ∧ s.paused = false ∧ toA ≠ 0 ∧
    ch ≠ "" ∧ sh ≠ "" ∧ im ≠ "" ∧ (1 ≤ ct ∧ ct ≤ 4) ∧ (vu = 0 ∨ ts < vu) ∧
    s.usedHashes (packedKey ch sh) = false ∧
    tid = s.tokenIdCounter + 1 ∧ s.owners tid = 0 ∧ s.revoked tid = false ∧
    s' = mintedState s caller toA ch sh eh im ct sb vu zk ts := by
  unfold mintCredential at h
  split_ifs at h with c1 c2 c3 c4 c5 c6 c7 c8 c9
  obtain ⟨htid, hto, hown, hp, hr, hexp, hs⟩ := storeAndMint_ok h
  simp only [Bool.not_eq_false, Bool.not_eq_true, Bool.not_eq_false', Bool.not_eq_true',
    Bool.and_eq_true, Bool.or_eq_true, decide_eq_true_eq, beq_iff_eq, ne_eq]
    at c1 c4 c5 c6 c7 c8 c9
  exact ⟨c1, hp, hto, c4, c5, c6, c7, c8, c9, htid, hown, hr, hs⟩

theorem mintSingle_ok {s : ChainState} {caller toA : Nat} {ch sh eh im : String}
    {ct : Nat} {sb : Bool} {vu zk ts : Nat} {tid : Nat} {s' : ChainState}
    (h : mintSingleCredential s caller toA ch sh eh im ct sb vu zk ts = .ok (tid, s')) :
    s.usedHashes (packedKey ch sh) = false ∧
    tid = s.tokenIdCounter + 1 ∧ toA ≠ 0 ∧ s.owners tid = 0 ∧ s.revoked tid = false ∧
    s' = mintedState s caller toA ch sh eh im ct sb vu zk ts := by
  unfold mintSingleCredential at h
  split_ifs at h with c1
  obtain ⟨htid, hto, hown, hp, hr, hexp, hs⟩ := storeAndMint_ok h
  exact ⟨by simpa using c1, htid, hto, hown, hr, hs⟩

/-- C2: with the same `(courseHash, studentHash)` commitment, the first
mint succeeds and assigns the fresh token id `tokenIdCounter + 1` (a token
that did not exist before), and a second mint — by any issuer, for any
recipient and any other arguments that pass the input checks — fails with
the duplicate-credential revert, leaving the ledger state unchanged. -/
theorem duplicate_mint_rejected
    (s s1 : ChainState) (caller toA tid : Nat) (ch sh eh im : String)
    (ct : Nat) (sb : Bool) (vu zk ts : Nat)
    (caller2 toA2 : Nat) (eh2 im2 : String) (ct2 : Nat) (sb2 : Bool) (vu2 zk2 ts2 : Nat)
    (h1 : mintCredential s caller toA ch sh eh im ct sb vu zk ts = .ok (tid, s1))
    (hrole2 : s1.issuerRole caller2 = true) (hto2 : toA2 ≠ 0) (him2 : im2 ≠ "")
    (hct2 : 1 ≤ ct2 ∧ ct2 ≤ 4) (hvu2 : vu2 = 0 ∨ ts2 < vu2) :
    tid = s.tokenIdCounter + 1 ∧ s.owners tid = 0 ∧ s1.owners tid = toA ∧
    mintCredential s1 caller2 toA2 ch sh eh2 im2 ct2 sb2 vu2 zk2 ts2 =
      .error "Credential already exists" ∧
    execTrace s1 [(ts2, Op.mint caller2 toA2 ch sh eh2 im2 ct2 sb2 vu2 zk2)] = s1 := by
  obtain ⟨hrole, hp, hto, hch, hsh, him, hct, hvu, hused, htid, hown, hrv, hs⟩ :=
    mintCredential_ok h1
  subst hs
  subst htid
  have hown1 : (mintedState s caller toA ch sh eh im ct sb vu zk ts).owners
      (s.tokenIdCounter + 1) = toA := by
    simp [mintedState]
  have hused1 : (mintedState s caller toA ch sh eh im ct sb vu zk ts).usedHashes
      (packedKey ch sh) = true := by
    simp [mintedState]
  have hp1 : (mintedState s caller toA ch sh eh im ct sb vu zk ts).paused = false := hp
  have hmint2 : mintCredential (mintedState s caller toA ch sh eh im ct sb vu zk ts)
      caller2 toA2 ch sh eh2 im2 ct2 sb2 vu2 zk2 ts2 =
      .error "Credential already exists" := by
    unfold mintCredential
    rcases hvu2 with hz | hz <;>
      simp [hrole2, hp1, hused1, hto2, hch, hsh, him2, hct2.1, hct2.2, hz]
  refine ⟨rfl, hown, hown1, hmint2, ?_⟩
  simp [execTrace, execOp, hmint2]

/-- Witness for C2: the concrete double mint of commitment
`("c1", "s1")` from the deployment state. -/
theorem duplicate_mint_rejected_witness :
    (1 : Nat) = initialState.tokenIdCounter + 1 ∧ initialState.owners 1 = 0 ∧
    sActive.owners 1 = 2 ∧
    mintCredential sActive 1 3 "c1" "s1" "e2" "m2" 2 true 500 7 400 =
      .error "Credential already exists" ∧
    execTrace sActive [(400, Op.mint 1 3 "c1" "s1" "e2" "m2" 2 true 500 7)] = sActive :=
  duplicate_mint_rejected initialState sActive 1 2 1 "c1" "s1" "e1" "m1" 1 false 0 0 100
    1 3 "e2" "m2" 2 true 500 7 400 rfl (by decide) (by decide) (by decide)
    (by decide) (Or.inr (by decide))

theorem burnToken_ok {s : ChainState} {tokenId ts : Nat} {s' : ChainState}
    (h : burnToken s tokenId ts = .ok s') :
    s.owners tokenId ≠ 0 ∧ s.paused = false ∧ s.revoked tokenId = false ∧
    (s.credentials tokenId).isSoulbound = false ∧
    ¬(0 < (s.credentials tokenId).validUntil ∧ (s.credentials tokenId).validUntil < ts) ∧
    s' = { s with
           tokenApprovals := fun t => if t = tokenId then 0 else s.tokenApprovals t
           owners := fun t => if t = tokenId then 0 else s.owners t } := by
  unfold burnToken at h
  simp only [Nat.zero_lt_succ] at h
  split_ifs at h with c1
  split at h
  · exact Except.noConfusion h
  next u heq =>
    obtain ⟨hp, hsb, hr, hexp⟩ := beforeTokenTransfer_ok heq
    injection h with h2
    subst h2
    exact ⟨by simpa using c1, hp, hr, hsb (by simpa using c1), hexp, rfl⟩

theorem burn_ok {s : ChainState} {caller tokenId ts : Nat} {s' : ChainState}
    (h : burn s caller tokenId ts = .ok s') :
    s.isApprovedOrOwner caller tokenId = true ∧ (s.credentials tokenId).isRevocable = true ∧
    s.owners tokenId ≠ 0 ∧ s.paused = false ∧ s.revoked tokenId = false ∧
    s'.usedHashes = s.usedHashes ∧ s'.credentials tokenId = emptyCredential ∧
    s'.owners tokenId = 0 ∧ s'.revoked tokenId = false ∧
    s'.tokenIdCounter = s.tokenIdCounter ∧
    (∀ t, t ≠ tokenId → s'.credentials t = s.credentials t ∧ s'.owners t = s.owners t) := by
  unfold burn at h
  simp only [Nat.zero_lt_succ] at h
  split_ifs at h with c1 c2
  split at h
  · exact Except.noConfusion h
  next s1 heq =>
    obtain ⟨hex, hp, hr, hsb, hexp, hs1⟩ := burnToken_ok heq
    injection h with h2
    subst h2
    subst hs1
    refine ⟨by simpa using c1, by simpa using c2, hex, hp, hr, rfl, by simp, by simp,
      by simp, rfl, fun t ht => ⟨by simp [ht], by simp [ht]⟩⟩

/-- C5 amended: a successful `burn` removes the on-chain credential record
(and the owner slot and revocation flag), but does not remove the
`(courseHash, studentHash)` entry from the commitment-hash registry
`usedHashes` — the registry is untouched — so any previously used pair
still cannot be issued again afterwards. -/
theorem burn_purges_record_but_keeps_commitment
    (s : ChainState) (caller tokenId ts : Nat) (s' : ChainState)
    (h : burn s caller tokenId ts = .ok s') :
    s'.usedHashes = s.usedHashes ∧ s'.credentials tokenId = emptyCredential ∧
    s'.owners tokenId = 0 ∧
    ∀ (caller2 toA2 : Nat) (ch sh : String) (eh2 im2 : String) (ct2 : Nat) (sb2 : Bool)
      (vu2 zk2 ts2 : Nat),
      s.usedHashes (packedKey ch sh) = true →
      okB (mintCredential s' caller2 toA2 ch sh eh2 im2 ct2 sb2 vu2 zk2 ts2) = false := by
  obtain ⟨_, _, _, _, _, hu, hc, ho, _, _, _⟩ := burn_ok h
  refine ⟨hu, hc, ho, ?_⟩
  intro caller2 toA2 ch sh eh2 im2 ct2 sb2 vu2 zk2 ts2 hk
  cases hm : mintCredential s' caller2 toA2 ch sh eh2 im2 ct2 sb2 vu2 zk2 ts2 with
  | error e => rfl
  | ok p =>
    obtain ⟨tid2, s2⟩ := p
    obtain ⟨_, _, _, _, _, _, _, _, hused2, _⟩ := mintCredential_ok hm
    rw [hu, hk] at hused2
    exact absurd hused2 (by simp)

/-- Witness for the amended C5: the concrete burn of token 1 from
`sActive`. -/
theorem burn_purges_record_but_keeps_commitment_witness :
    sBurned.usedHashes = sActive.usedHashes ∧ sBurned.credentials 1 = emptyCredential ∧
    sBurned.owners 1 = 0 ∧
    okB (mintCredential sBurned 1 3 "c1" "s1" "e2" "m2" 1 false 0 0 300) = false := by
  obtain ⟨h1, h2, h3, h4⟩ :=
    burn_purges_record_but_keeps_commitment sActive 2 1 200 sBurned rfl
  exact ⟨h1, h2, h3, h4 1 3 "c1" "s1" "e2" "m2" 1 false 0 0 300 (by decide)⟩

/-- C6 amended: for a revocable, non-soulbound credential, `burn` by the
holder or an approved party succeeds only from the Active, non-expired
state, and then purges the token and its record; from the Revoked state
`burn` always fails, for every caller and timestamp, because the
`_beforeTokenTransfer` hook rejects revoked credentials. -/
theorem burn_from_active_only
    (s : ChainState) (caller tokenId ts : Nat)
    (happ : s.isApprovedOrOwner caller tokenId = true)
    (hrev : (s.credentials tokenId).isRevocable = true)
    (hsb : (s.credentials tokenId).isSoulbound = false)
    (hex : s.owners tokenId ≠ 0)
    (hnr : s.revoked tokenId = false)
    (hp : s.paused = false)
    (hexp : ¬(0 < (s.credentials tokenId).validUntil ∧
      (s.credentials tokenId).validUntil < ts)) :
    (∃ s', burn s caller tokenId ts = .ok s' ∧ s'.owners tokenId = 0 ∧
      s'.credentials tokenId = emptyCredential ∧ s'.revoked tokenId = false) ∧
    (∀ (s2 : ChainState) (c2 ts2 : Nat), s2.revoked tokenId = true →
      okB (burn s2 c2 tokenId ts2) = false) := by
  constructor
  · unfold burn burnToken beforeTokenTransfer
    simp [happ, hrev, hsb, hnr, hp, hex, hexp, emptyCredential]
  · intro s2 c2 ts2 hr2
    cases hap : s2.isApprovedOrOwner c2 tokenId with
    | false => unfold burn; simp [hap, okB]
    | true =>
      cases hrv : (s2.credentials tokenId).isRevocable with
      | false => unfold burn; simp [hap, hrv, okB]
      | true =>
        cases how : s2.owners tokenId == 0 with
        | true => unfold burn burnToken; simp [hap, hrv, how, okB]
        | false =>
          cases hpz : s2.paused with
          | true =>
            unfold burn burnToken beforeTokenTransfer
            simp [hap, hrv, how, hpz, okB]
          | false =>
            cases hsb2 : (s2.credentials tokenId).isSoulbound with
            | false =>
              unfold burn burnToken beforeTokenTransfer
              simp [hap, hrv, how, hpz, hsb2, hr2, okB]
            | true =>
              have how2 : ¬(s2.owners tokenId = 0) := by simpa using how
              unfold burn burnToken beforeTokenTransfer
              simp [hap, hrv, how2, hpz, hsb2, hr2, okB]

/-- Witness for the amended C6: burning token 1 succeeds from `sActive`
and fails from `sRevoked`. -/
theorem burn_from_active_only_witness :
    okB (burn sActive 2 1 200) = true ∧ okB (burn sRevoked 2 1 200) = false := by
  obtain ⟨⟨s', hok, _, _, _⟩, hfail⟩ :=
    burn_from_active_only sActive 2 1 200 (by decide) (by decide) (by decide)
      (by decide) (by decide) (by decide) (by decide)
  refine ⟨?_, hfail sRevoked 2 200 (by decide)⟩
  rw [hok]
  rfl

theorem claimFirst_none {token : String} {ts : Nat} {db : List EnrollmentDoc}
    (h : ∀ e ∈ db, matchesClaim token e = false) :
    claimFirst token ts db = (none, db) := by
  induction db with
  | nil => rfl
  | cons e rest ih =>
    unfold claimFirst
    rw [h e (List.mem_cons_self e rest)]
    simp [ih (fun x hx => h x (List.mem_cons_of_mem _ hx))]

theorem matchesClaim_markClaimed (token : String) (ts : Nat) (e : EnrollmentDoc) :
    matchesClaim token (markClaimed ts e) = false := by
  unfold matchesClaim markClaimed
  cases hc : e.certificate <;> simp [hc]

theorem claimFirst_found {token : String} {ts : Nat} {db : List EnrollmentDoc}
    {e : EnrollmentDoc}
    (hmem : e ∈ db) (hmatch : matchesClaim token e = true)
    (huniq : db.countP (fun x => matchesClaim token x) ≤ 1) :
    ∃ db', claimFirst token ts db = (some e, db') ∧
      ∀ x ∈ db', matchesClaim token x = false := by
  induction db with
  | nil => cases hmem
  | cons a rest ih =>
    by_cases ha : matchesClaim token a = true
    · have hcount : rest.countP (fun x => matchesClaim token x) = 0 := by
        rw [List.countP_cons, ha] at huniq
        simpa using huniq
      have hrest0 : ∀ x ∈ rest, matchesClaim token x = false := by
        intro x hx
        by_contra hx2
        have hpos : 0 < rest.countP (fun x => matchesClaim token x) :=
          List.countP_pos_iff.mpr ⟨x, hx, by simpa using hx2⟩
        omega
      have hae : a = e := by
        rcases List.mem_cons.mp hmem with h1 | hmem2
        · exact h1.symm
        · exact absurd hmatch (by simp [hrest0 e hmem2])
      subst hae
      refine ⟨markClaimed ts a :: rest, ?_, ?_⟩
      · unfold claimFirst
        simp [ha]
      · intro x hx
        rcases List.mem_cons.mp hx with h1 | hx2
        · rw [h1]
          exact matchesClaim_markClaimed token ts a
        · exact hrest0 x hx2
    · have hmem2 : e ∈ rest := by
        rcases List.mem_cons.mp hmem with h1 | hm
        · exact absurd (h1 ▸ hmatch) ha
        · exact hm
      have huniq2 : rest.countP (fun x => matchesClaim token x) ≤ 1 := by
        rw [List.countP_cons] at huniq
        omega
      obtain ⟨db', hcf, hall⟩ := ih hmem2 huniq2
      refine ⟨a :: db', ?_, ?_⟩
      · unfold claimFirst
        simp only [Bool.not_eq_true] at ha
        simp [ha, hcf]
      · intro x hx
        rcases List.mem_cons.mp hx with h1 | hx2
        · rw [h1]
          simpa using ha
        · exact hall x hx2

/-- C7: for a claim token present unclaimed on exactly one enrollment,
the first `claim(token)` call answers 200 with the credential summary and
marks the certificate claimed; the second call with the same token
answers 404 `Invalid or expired claim token` and leaves the database
unchanged. -/
theorem claim_token_single_use
    (db : List EnrollmentDoc) (token : String) (ts ts2 : Nat)
    (e : EnrollmentDoc) (c : CertRef)
    (htok : token ≠ "")
    (hmem : e ∈ db) (hcert : e.certificate = some c)
    (hmatch : c.claimToken = token) (hunclaimed : c.claimed = false)
    (huniq : db.countP (fun x => matchesClaim token x) ≤ 1) :
    ∃ db',
      claimCertificateHandler db token ts =
        ({ status := 200
           message := "Certificate claimed successfully"
           summary := some
             { tokenId := c.tokenId
               courseName := e.courseTitle
               studentName := e.userName
               completionDate := e.completedAt
               transactionHash := c.transactionHash } }, db') ∧
      claimCertificateHandler db' token ts2 =
        ({ status := 404, message := "Invalid or expired claim token",
           summary := none }, db') := by
  have hm : matchesClaim token e = true := by
    simp [matchesClaim, hcert, hmatch, hunclaimed]
  obtain ⟨db', hcf, hall⟩ := claimFirst_found hmem hm huniq
  have htokb : (token == "") = false := by simpa using htok
  refine ⟨db', ?_, ?_⟩
  · unfold claimCertificateHandler
    rw [hcf]
    simp [htokb, hcert]
  · unfold claimCertificateHandler
    rw [claimFirst_none hall]
    simp [htokb]

/-- Witness for C7 on the one-enrollment database `claimDb`. -/
theorem claim_token_single_use_witness :
    ∃ db',
      claimCertificateHandler claimDb "tok" 120 =
        ({ status := 200
           message := "Certificate claimed successfully"
           summary := some
             { tokenId := 7
               courseName := "Course A"
               studentName := "Alice"
               completionDate := 90
               transactionHash := "0xabc" } }, db') ∧
      claimCertificateHandler db' "tok" 130 =
        ({ status := 404, message := "Invalid or expired claim token",
           summary := none }, db') :=
  claim_token_single_use claimDb "tok" 120 130
    { id := 5
      courseTitle := "Course A"
      userName := "Alice"
      completedAt := 90
      certificate := some
        { tokenId := 7, transactionHash := "0xabc", mintedAt := 100
          claimToken := "tok", claimed := false, claimedAt := none } }
    { tokenId := 7, transactionHash := "0xabc", mintedAt := 100
      claimToken := "tok", claimed := false, claimedAt := none }
    (by decide) (by decide) (by decide) (by decide) (by decide) (by decide)

theorem mintedState_preserves {s : ChainState} {tid : Nat}
    (hex : s.owners tid ≠ 0) (hown0 : s.owners (s.tokenIdCounter + 1) = 0)
    (caller toA : Nat) (ch sh eh im : String) (ct : Nat) (sb : Bool) (vu zk ts : Nat) :
    (mintedState s caller toA ch sh eh im ct sb vu zk ts).credentials tid =
      s.credentials tid ∧
    (mintedState s caller toA ch sh eh im ct sb vu zk ts).owners tid = s.owners tid := by
  have hne : tid ≠ s.tokenIdCounter + 1 := fun hEq => hex (hEq ▸ hown0)
  constructor <;> simp [mintedState, hne]

theorem mintSingle_preserves {s : ChainState} {caller toA : Nat} {ch sh eh im : String}
    {ct : Nat} {sb : Bool} {vu zk ts tid2 : Nat} {s' : ChainState} {tid : Nat}
    (hex : s.owners tid ≠ 0)
    (h : mintSingleCredential s caller toA ch sh eh im ct sb vu zk ts = .ok (tid2, s')) :
    s'.credentials tid = s.credentials tid ∧ s'.owners tid = s.owners tid := by
  obtain ⟨_, htid2, _, hown0, _, hs⟩ := mintSingle_ok h
  subst hs
  subst htid2
  exact mintedState_preserves hex hown0 caller toA ch sh eh im ct sb vu zk ts

theorem batchMintLoop_preserves {caller ts tid : Nat} :
    ∀ {items : List BatchItem} {s s' : ChainState},
    s.owners tid ≠ 0 → batchMintLoop s caller ts items = .ok s' →
    s'.credentials tid = s.credentials tid ∧ s'.owners tid = s.owners tid := by
  intro items
  induction items with
  | nil =>
    intro s s' hex h
    injection h with h2
    subst h2
    exact ⟨rfl, rfl⟩
  | cons item rest ih =>
    intro s s' hex h
    unfold batchMintLoop at h
    split at h
    · exact Except.noConfusion h
    next p si heq =>
      obtain ⟨hc1, ho1⟩ := mintSingle_preserves hex heq
      have hex2 : si.owners tid ≠ 0 := by rw [ho1]; exact hex
      obtain ⟨hc2, ho2⟩ := ih hex2 h
      exact ⟨hc2.trans hc1, ho2.trans ho1⟩

theorem transferFrom_ok_facts {s : ChainState} {caller fr toA tokenId ts : Nat}
    {s' : ChainState} (h : transferFrom s caller fr toA tokenId ts = .ok s') :
    (s.credentials tokenId).isSoulbound = false ∧ s'.credentials = s.credentials ∧
    s'.owners = fun t => if t = tokenId then toA else s.owners t := by
  unfold transferFrom at h
  split_ifs at h with c1 c2 c3 c4
  split at h
  · exact Except.noConfusion h
  next u heq =>
    injection h with h2
    subst h2
    exact ⟨by simpa using c1, rfl, rfl⟩

theorem safeTransferFrom_eq_transferFrom (s : ChainState) (caller fr toA tokenId ts : Nat) :
    safeTransferFrom s caller fr toA tokenId ts = transferFrom s caller fr toA tokenId ts :=
  rfl

theorem revoke_ok_facts {s : ChainState} {caller tokenId : Nat} {s' : ChainState}
    (h : revokeCredential s caller tokenId = .ok s') :
    s'.credentials = s.credentials ∧ s'.owners = s.owners := by
  unfold revokeCredential at h
  split_ifs at h
  injection h with h2
  subst h2
  exact ⟨rfl, rfl⟩

theorem setVerification_ok_facts {s : ChainState} {caller tokenId : Nat} {v : Bool}
    {s' : ChainState} (h : setCredentialVerification s caller tokenId v = .ok s') :
    s'.owners = s.owners ∧
    ∀ t, (s'.credentials t).isSoulbound = (s.credentials t).isSoulbound ∧
      (s'.credentials t).isRevocable = (s.credentials t).isRevocable := by
  unfold setCredentialVerification at h
  split_ifs at h
  injection h with h2
  subst h2
  refine ⟨rfl, fun t => ?_⟩
  by_cases ht : t = tokenId <;> simp [ht]

theorem approveToken_ok_facts {s : ChainState} {caller toA tokenId : Nat} {s' : ChainState}
    (h : approveToken s caller toA tokenId = .ok s') :
    s'.credentials = s.credentials ∧ s'.owners = s.owners := by
  unfold approveToken at h
  simp only [Nat.zero_lt_succ] at h
  split_ifs at h
  injection h with h2
  subst h2
  exact ⟨rfl, rfl⟩

theorem setApprovalForAll_ok_facts {s : ChainState} {caller operator : Nat} {v : Bool}
    {s' : ChainState} (h : setApprovalForAll s caller operator v = .ok s') :
    s'.credentials = s.credentials ∧ s'.owners = s.owners := by
  unfold setApprovalForAll at h
  split_ifs at h
  injection h with h2
  subst h2
  exact ⟨rfl, rfl⟩

theorem setPaused_ok_facts {s : ChainState} {caller : Nat} {p : Bool} {s' : ChainState}
    (h : setPaused s caller p = .ok s') :
    s'.credentials = s.credentials ∧ s'.owners = s.owners := by
  unfold setPaused at h
  split_ifs at h
  injection h with h2
  subst h2
  exact ⟨rfl, rfl⟩

theorem transferFrom_soulbound_fails {s : ChainState} {c f t tok ts : Nat}
    (h : (s.credentials tok).isSoulbound = true) :
    transferFrom s c f t tok ts = .error "Soulbound tokens cannot be transferred" := by
  unfold transferFrom
  simp [h]

theorem burn_fails_not_revocable {s : ChainState} {c tok ts : Nat}
    (h : (s.credentials tok).isRevocable = false) : okB (burn s c tok ts) = false := by
  unfold burn
  cases hap : s.isApprovedOrOwner c tok <;> simp [hap, h, okB]

theorem soulbound_invariant_step {s s' : ChainState} {ts : Nat} {op : Op} {tid o : Nat}
    (ho : o ≠ 0)
    (hsb : (s.credentials tid).isSoulbound = true)
    (hrv : (s.credentials tid).isRevocable = false)
    (hown : s.owners tid = o)
    (h : execOp s ts op = .ok s') :
    (s'.credentials tid).isSoulbound = true ∧ (s'.credentials tid).isRevocable = false ∧
    s'.owners tid = o := by
  have hex : s.owners tid ≠ 0 := by rw [hown]; exact ho
  cases op with
  | mint caller toA ch sh eh im ct sb vu zk =>
    simp only [execOp] at h
    split at h
    · exact Except.noConfusion h
    next p s2 heq =>
      injection h with h2
      subst h2
      obtain ⟨_, _, _, _, _, _, _, _, _, htid2, hown0, _, hs⟩ := mintCredential_ok heq
      subst hs
      subst htid2
      obtain ⟨hc, ho2⟩ := mintedState_preserves hex hown0 caller toA ch sh eh im ct sb vu zk ts
      rw [hc, ho2]
      exact ⟨hsb, hrv, hown⟩
  | batchMint caller items =>
    simp only [execOp] at h
    unfold batchMintCredentials at h
    split_ifs at h
    obtain ⟨hc, ho2⟩ := batchMintLoop_preserves hex h
    rw [hc, ho2]
    exact ⟨hsb, hrv, hown⟩
  | transfer caller fr toA tokenId =>
    simp only [execOp] at h
    obtain ⟨hnsb, hc, ho2⟩ := transferFrom_ok_facts h
    by_cases ht : tokenId = tid
    · rw [ht] at hnsb
      rw [hnsb] at hsb
      exact Bool.noConfusion hsb
    · rw [hc, ho2]
      have : tid ≠ tokenId := fun hEq => ht hEq.symm
      simp [this]
      exact ⟨hsb, hrv, hown⟩
  | safeTransfer caller fr toA tokenId =>
    simp only [execOp, safeTransferFrom_eq_transferFrom] at h
    obtain ⟨hnsb, hc, ho2⟩ := transferFrom_ok_facts h
    by_cases ht : tokenId = tid
    · rw [ht] at hnsb
      rw [hnsb] at hsb
      exact Bool.noConfusion hsb
    · rw [hc, ho2]
      have : tid ≠ tokenId := fun hEq => ht hEq.symm
      simp [this]
      exact ⟨hsb, hrv, hown⟩
  | safeTransferData caller fr toA tokenId dataBytes =>
    simp only [execOp, safeTransferFromData, safeTransferFrom_eq_transferFrom] at h
    obtain ⟨hnsb, hc, ho2⟩ := transferFrom_ok_facts h
    by_cases ht : tokenId = tid
    · rw [ht] at hnsb
      rw [hnsb] at hsb
      exact Bool.noConfusion hsb
    · rw [hc, ho2]
      have : tid ≠ tokenId := fun hEq => ht hEq.symm
      simp [this]
      exact ⟨hsb, hrv, hown⟩
  | burnOp caller tokenId =>
    simp only [execOp] at h
    obtain ⟨_, hrev2, _, _, _, _, _, _, _, _, hoth⟩ := burn_ok h
    by_cases ht : tokenId = tid
    · rw [ht] at hrev2
      rw [hrv] at hrev2
      exact Bool.noConfusion hrev2
    · obtain ⟨hc, ho2⟩ := hoth tid (fun hEq => ht hEq.symm)
      rw [hc, ho2]
      exact ⟨hsb, hrv, hown⟩
  | revoke caller tokenId =>
    simp only [execOp] at h
    obtain ⟨hc, ho2⟩ := revoke_ok_facts h
    rw [hc, ho2]
    exact ⟨hsb, hrv, hown⟩
  | setVerification caller tokenId v =>
    simp only [execOp] at h
    obtain ⟨ho2, hc⟩ := setVerification_ok_facts h
    obtain ⟨hc1, hc2⟩ := hc tid
    rw [hc1, hc2, ho2]
    exact ⟨hsb, hrv, hown⟩
  | approve caller toA tokenId =>
    simp only [execOp] at h
    obtain ⟨hc, ho2⟩ := approveToken_ok_facts h
    rw [hc, ho2]
    exact ⟨hsb, hrv, hown⟩
  | approveAll caller operator v =>
    simp only [execOp] at h
    obtain ⟨hc, ho2⟩ := setApprovalForAll_ok_facts h
    rw [hc, ho2]
    exact ⟨hsb, hrv, hown⟩
  | pauseOp caller p =>
    simp only [execOp] at h
    obtain ⟨hc, ho2⟩ := setPaused_ok_facts h
    rw [hc, ho2]
    exact ⟨hsb, hrv, hown⟩

theorem soulbound_invariant_trace :
    ∀ (ops : List (Nat × Op)) (s : ChainState) (tid o : Nat), o ≠ 0 →
    (s.credentials tid).isSoulbound = true → (s.credentials tid).isRevocable = false →
    s.owners tid = o →
    ((execTrace s ops).credentials tid).isSoulbound = true ∧
    ((execTrace s ops).credentials tid).isRevocable = false ∧
    (execTrace s ops).owners tid = o := by
  intro ops
  induction ops with
  | nil =>
    intro s tid o ho h1 h2 h3
    exact ⟨h1, h2, h3⟩
  | cons p rest ih =>
    intro s tid o ho h1 h2 h3
    obtain ⟨pts, pop⟩ := p
    simp only [execTrace]
    cases hstep : execOp s pts pop with
    | error e => exact ih s tid o ho h1 h2 h3
    | ok s2 =>
      obtain ⟨h1b, h2b, h3b⟩ := soulbound_invariant_step ho h1 h2 h3 hstep
      exact ih s2 tid o ho h1b h2b h3b

/-- C4: once a credential is minted with `isSoulbound = true`, after any
sequence of contract transactions the token's owner is still the mint
recipient, and in the state so reached every `transferFrom`,
`safeTransferFrom` (with or without data) and `burn` attempt on that
token, by any caller including the original minter, fails. -/
theorem soulbound_owner_never_changes
    (s s1 : ChainState) (caller toA tid : Nat) (ch sh eh im : String)
    (ct : Nat) (vu zk ts : Nat)
    (h1 : mintCredential s caller toA ch sh eh im ct true vu zk ts = .ok (tid, s1))
    (ops : List (Nat × Op)) :
    s1.owners tid = toA ∧
    (execTrace s1 ops).owners tid = toA ∧
    (∀ caller2 fr toA2 ts2,
      transferFrom (execTrace s1 ops) caller2 fr toA2 tid ts2 =
        .error "Soulbound tokens cannot be transferred" ∧
      safeTransferFrom (execTrace s1 ops) caller2 fr toA2 tid ts2 =
        .error "Soulbound tokens cannot be transferred" ∧
      ∀ dataBytes,
        safeTransferFromData (execTrace s1 ops) caller2 fr toA2 tid ts2 dataBytes =
          .error "Soulbound tokens cannot be transferred") ∧
    (∀ caller2 ts2, okB (burn (execTrace s1 ops) caller2 tid ts2) = false) := by
  obtain ⟨_, _, hto, _, _, _, _, _, _, htid, _, _, hs⟩ := mintCredential_ok h1
  subst hs
  subst htid
  have hsb1 : ((mintedState s caller toA ch sh eh im ct true vu zk ts).credentials
      (s.tokenIdCounter + 1)).isSoulbound = true := by
    simp [mintedState, mintedCred]
  have hrv1 : ((mintedState s caller toA ch sh eh im ct true vu zk ts).credentials
      (s.tokenIdCounter + 1)).isRevocable = false := by
    simp [mintedState, mintedCred]
  have hown1 : (mintedState s caller toA ch sh eh im ct true vu zk ts).owners
      (s.tokenIdCounter + 1) = toA := by
    simp [mintedState]
  obtain ⟨hsb2, hrv2, hown2⟩ :=
    soulbound_invariant_trace ops (mintedState s caller toA ch sh eh im ct true vu zk ts)
      (s.tokenIdCounter + 1) toA hto hsb1 hrv1 hown1
  refine ⟨hown1, hown2, ?_, ?_⟩
  · intro caller2 fr toA2 ts2
    refine ⟨transferFrom_soulbound_fails hsb2, ?_, ?_⟩
    · rw [safeTransferFrom_eq_transferFrom]
      exact transferFrom_soulbound_fails hsb2
    · intro dataBytes
      show safeTransferFrom _ caller2 fr toA2 _ ts2 = _
      rw [safeTransferFrom_eq_transferFrom]
      exact transferFrom_soulbound_fails hsb2
  · intro caller2 ts2
    exact burn_fails_not_revocable hrv2

/-- Witness for C4: the concrete soulbound credential of `sSoul`, with a
transfer and a burn attempted in the trace and directly. -/
theorem soulbound_owner_never_changes_witness :
    sSoul.owners 1 = 2 ∧
    (execTrace sSoul [(150, Op.transfer 2 2 3 1), (160, Op.burnOp 2 1)]).owners 1 = 2 ∧
    transferFrom sSoul 2 2 3 1 150 = .error "Soulbound tokens cannot be transferred" ∧
    okB (burn sSoul 2 1 160) = false := by
  obtain ⟨h1, h2, _, _⟩ :=
    soulbound_owner_never_changes initialState sSoul 1 2 1 "c2" "s2" "e1" "m1" 1 0 0 100
      rfl [(150, Op.transfer 2 2 3 1), (160, Op.burnOp 2 1)]
  obtain ⟨_, _, h3, h4⟩ :=
    soulbound_owner_never_changes initialState sSoul 1 2 1 "c2" "s2" "e1" "m1" 1 0 0 100
      rfl []
  exact ⟨h1, h2, (h3 2 2 3 150).1, h4 2 160⟩

end EduChain
